import Mathlib

/-!
Verification of the cc-parser v5→v6 configuration migration tool
(`src/parser.py`, class `CCParser`) against its specification.

JSON documents are embedded as association lists with Python-dict
semantics: lookup finds the first (unique, for real dicts) occurrence of
a key, assignment updates an existing key in place or appends a fresh
one.  Scalar JSON values are opaque to the parser except the one string
that gets split, so they are collapsed into a single `prim` constructor
carrying a string; nested objects are `obj`.  `KeyError` /
`AttributeError` propagation is modelled with `Except String`.
-/

namespace CCParser

/-- A JSON value as far as the parser inspects it: an opaque scalar or a
nested object (Python `dict`). -/
inductive JVal where
  | prim : String → JVal
  | obj : List (String × JVal) → JVal
  deriving Repr

/-- A JSON object / Python dict: ordered association list. -/
abbrev Doc := List (String × JVal)

/-- The static rename table type (new key → legacy key). -/
abbrev RTable := List (String × String)

/-- Python `d[k]` as an `Option`: first binding of `k`. -/
def lookupD : Doc → String → Option JVal
  | [], _ => none
  | (k', v) :: rest, k => if k' = k then some v else lookupD rest k

/-- Python `k in d.keys()`. -/
def containsD (d : Doc) (k : String) : Bool :=
  (lookupD d k).isSome

/-- Python `d[k] = v`: update in place if present, else append. -/
def insertD : Doc → String → JVal → Doc
  | [], k, v => [(k, v)]
  | (k', v') :: rest, k, v =>
      if k' = k then (k, v) :: rest else (k', v') :: insertD rest k v

/-- Python `d.keys()` in declaration order. -/
def keysD (d : Doc) : List String :=
  d.map Prod.fst

/-- Lookup in a string-to-string table (`PARSE_MAPPING`). -/
def lookupS : RTable → String → Option String
  | [], _ => none
  | (k', v) :: rest, k => if k' = k then some v else lookupS rest k

/-- The message carried by a propagated Python `KeyError`. -/
def keyErrorMsg (k : String) : String :=
  "KeyError: " ++ k

/-- Python `d[k]`, raising `KeyError` when the key is absent. -/
def getE (d : Doc) (k : String) : Except String JVal :=
  match lookupD d k with
  | some v => .ok v
  | none => .error (keyErrorMsg k)

/-- Python `m[k]` on the rename table, raising `KeyError` when absent. -/
def getSE (m : RTable) (k : String) : Except String String :=
  match lookupS m k with
  | some v => .ok v
  | none => .error (keyErrorMsg k)

/-- A value used as a dict (`.keys()`, `.items()`, subscripting): a
non-dict raises (modelled strictly at the point of access). -/
def asObjE : JVal → Except String Doc
  | .obj d => .ok d
  | .prim s => .error ("AttributeError: not a dict: " ++ s)

/-- A value used as a string (`.split`): a dict raises. -/
def asStrE : JVal → Except String String
  | .prim s => .ok s
  | .obj _ => .error "AttributeError: not a string"

/-- `d[k]` followed by use of the result as a dict. -/
def getObjE (d : Doc) (k : String) : Except String Doc :=
  match getE d k with
  | .ok v => asObjE v
  | .error e => .error e

/-- `CCParser.PARSE_MAPPING` verbatim, in declaration order. -/
def PARSE_MAPPING : RTable := [
  ("selected_character", "current_char"),
  ("main_character", "main_char_position"),
  ("allow_potions", "use_potions"),
  ("allow_speciality", "use_transform"),
  ("allow_awakening", "use_awakening"),
  ("allow_gold_portal_skills", "gold_portal_skills"),
  ("stage_1_focus", "focus_enemies_s1"),
  ("heal_at", "hp_value"),
  ("game_class", "class"),
  ("map", "map_key"),
  ("interact", "interact_key"),
  ("potion", "potion_key"),
  ("aura_potion", "aura_potion_key"),
  ("inventory", "inventory_key"),
  ("speciality", "transform_key"),
  ("speciality_2", "switch_gun_key"),
  ("integrated_dungeon_1", "chaos_ui_alt"),
  ("integrated_dungeon_2", "chaos_ui_q"),
  ("pet_ui_1", "pet_alt"),
  ("pet_ui_2", "pet_p"),
  ("quest_ui_1", "quest_alt"),
  ("quest_ui_2", "quest_j"),
  ("guild_ui_1", "guild_ui_alt"),
  ("guild_ui_2", "guild_ui_u"),
  ("bifrost_ui_1", "bifrost_alt"),
  ("bifrost_ui_2", "bifrost_w"),
  ("id", "discord_id"),
  ("token", "discord_token"),
  ("error_mention", "at_on_events"),
  ("post_special_portal", "post_specials"),
  ("post_progress", "post_time"),
  ("post_statistics", "post_updates"),
  ("shutdown_pc", "acr_shutdown_pc"),
  ("aid_research", "include_guild"),
  ("priority", "skill_priorities")]

/-- `CCParser._add_retained_keys`: for every `(k, v)` of `to_parse`, in
order, if `k` is a schema key then `new_dict[k] = v`. -/
def addRetainedKeys (newDict : Doc) (toParse : Doc) (schema : Doc) : Doc :=
  match toParse with
  | [] => newDict
  | (k, v) :: rest =>
      addRetainedKeys (if containsD schema k then insertD newDict k v else newDict)
        rest schema

/-- `CCParser._add_parse_map_keys`: for every `(k, v)` of the rename
table, in order, if `k` is a schema key and `v` a key of `to_parse` then
`new_dict[k] = to_parse[v]`.  The subscript `to_parse[v]` is kept as a
fallible access exactly as in the source. -/
def addParseMapKeysE (mapping : RTable) (newDict toParse schema : Doc) :
    Except String Doc :=
  match mapping with
  | [] => pure newDict
  | (k, v) :: rest =>
      if containsD schema k && containsD toParse v then
        match getE toParse v with
        | .ok val => addParseMapKeysE rest (insertD newDict k val) toParse schema
        | .error e => .error e
      else addParseMapKeysE rest newDict toParse schema

/-- Total view of `_add_parse_map_keys` (the guarded subscript cannot
actually raise; the equivalence is proved in `addParseMapKeysE_eq`). -/
def addParseMapKeys (mapping : RTable) (newDict toParse schema : Doc) : Doc :=
  match mapping with
  | [] => newDict
  | (k, v) :: rest =>
      addParseMapKeys rest
        (match lookupD toParse v with
         | some val => if containsD schema k then insertD newDict k val else newDict
         | none => newDict)
        toParse schema

/-- The Key Resolver of §4.1: retained-keys pass then rename-table pass,
into a fresh empty dict (the calling pattern of `parse_settings`,
`parse_keybinds`, `_parse_preset_settings` and `parse_altcycler`). -/
def resolve (mapping : RTable) (schema toParse : Doc) : Doc :=
  addParseMapKeys mapping (addRetainedKeys [] toParse schema) toParse schema

/-- The Key Resolver with Python's fallible subscripts kept. -/
def resolveE (mapping : RTable) (schema toParse : Doc) : Except String Doc :=
  addParseMapKeysE mapping (addRetainedKeys [] toParse schema) toParse schema

/-- The per-call diagnostic `set(schema.keys()).difference(parsed.keys())`
computed by the log statements (e.g. `parse_settings`, line 137). -/
def unresolvedReport (schema result : Doc) : List String :=
  (keysD schema).filter (fun k => ! containsD result k)

/-- The four section names iterated by `parse_settings` (line 127). -/
def settingsSectionList : List String :=
  ["global", "chaos", "discord", "altcycler"]

/-- The loop body of `CCParser.parse_settings`: for each section, take
the schema slice `settings_schema[section]` and resolve it against the
one shared `to_parse` sub-document. -/
def parseSettingsLoop (mapping : RTable) (settingsSchema toParse : Doc) :
    List String → Doc → Except String Doc
  | [], acc => .ok acc
  | s :: rest, acc =>
      match getObjE settingsSchema s with
      | .error e => .error e
      | .ok schema =>
          match addParseMapKeysE mapping (addRetainedKeys [] toParse schema)
              toParse schema with
          | .error e => .error e
          | .ok parsed =>
              parseSettingsLoop mapping settingsSchema toParse rest
                (insertD acc s (.obj parsed))

/-- `CCParser.parse_settings`: resolves all four fixed sections against
`settings_data["global_keys"]`. -/
def parse_settings (mapping : RTable) (settingsSchema settingsData : Doc) :
    Except String Doc :=
  match getObjE settingsData "global_keys" with
  | .error e => .error e
  | .ok toParse => parseSettingsLoop mapping settingsSchema toParse settingsSectionList []

/-- Python `s.split("-")[0]`: the prefix of `s` before the first `'-'`
(the whole string when no `'-'` occurs; `str.split` always returns a
non-empty list, so the `[0]` subscript itself never fails). -/
def splitFirstDash (s : String) : String :=
  String.mk (s.toList.takeWhile (fun c => c ≠ '-'))

/-- `CCParser.parse_keybinds`: resolves the keybinds schema against
`settings_data["global_keys"]`, then derives the static entry
`parsed["primary_mouse"] = data_to_parse["move_with"].split("-")[0]`. -/
def parse_keybinds (mapping : RTable) (keybindsSchema settingsData : Doc) :
    Except String Doc :=
  match getObjE settingsData "global_keys" with
  | .error e => .error e
  | .ok dataToParse =>
      match addParseMapKeysE mapping (addRetainedKeys [] dataToParse keybindsSchema)
          dataToParse keybindsSchema with
      | .error e => .error e
      | .ok parsed =>
          match getE dataToParse "move_with" with
          | .error e => .error e
          | .ok mv =>
              match asStrE mv with
              | .error e => .error e
              | .ok s => .ok (insertD parsed "primary_mouse" (.prim (splitFirstDash s)))

/-- One iteration of the skill-slot loop of `_parse_preset_skills`
(lines 207–219), at 1-based position `idx`, schema entry `(k, v)`:
a dict-valued slot is resolved by the retained-keys pass alone, with
`parsed["rgb"] = rgbs[f"skill_{idx}"]` injected when `idx < 9`; a
scalar slot is `rotation[k]`, falling back on
`rotation[PARSE_MAPPING[k]]`, every lookup fatal on a miss. -/
def parseSkillSlot (mapping : RTable) (toParse rgbs : Doc) (idx : Nat)
    (k : String) (v : JVal) : Except String JVal :=
  match v with
  | .obj vSchema =>
      let parsed := addRetainedKeys [] toParse vSchema
      if idx < 9 then
        match getE rgbs ("skill_" ++ toString idx) with
        | .error e => .error e
        | .ok rgb => .ok (.obj (insertD parsed "rgb" rgb))
      else .ok (.obj parsed)
  | .prim _ =>
      match lookupD toParse k with
      | some val => .ok val
      | none =>
          match getSE mapping k with
          | .error e => .error e
          | .ok legacy => getE toParse legacy

/-- The skill-slot loop of `_parse_preset_skills`: `enumerate(..., start=1)`
over the schema entries, accumulating `parsed_rotation_data[preset]`. -/
def parsePresetSkillsLoop (mapping : RTable) (toParse rgbs : Doc) :
    List (String × JVal) → Nat → Doc → Except String Doc
  | [], _, acc => .ok acc
  | (k, v) :: rest, idx, acc =>
      match parseSkillSlot mapping toParse rgbs idx k v with
      | .error e => .error e
      | .ok slot =>
          parsePresetSkillsLoop mapping toParse rgbs rest (idx + 1) (insertD acc k slot)

/-- `CCParser._parse_preset_skills`: binds `to_parse = rotation_data[preset]`
and `rgbs = rgb_data[preset]`, runs the slot loop, then merges the
retained keys of `settings_data[preset]` under the awakening schema
slice into the already-built `"awakening"` sub-object (lines 221–222 —
note: `_add_retained_keys` only, no `_add_parse_map_keys`). -/
def parse_preset_skills (mapping : RTable) (skillsSchemaSL : Doc)
    (rotationData settingsData rgbData : Doc) (preset : String) :
    Except String Doc :=
  match getObjE rotationData preset with
  | .error e => .error e
  | .ok toParse =>
      match getObjE rgbData preset with
      | .error e => .error e
      | .ok rgbs =>
          match parsePresetSkillsLoop mapping toParse rgbs skillsSchemaSL 1 [] with
          | .error e => .error e
          | .ok core =>
              match getObjE core "awakening" with
              | .error e => .error e
              | .ok awk =>
                  match getObjE settingsData preset with
                  | .error e => .error e
                  | .ok presetSettings =>
                      match getObjE skillsSchemaSL "awakening" with
                      | .error e => .error e
                      | .ok awkSchema =>
                          .ok (insertD core "awakening"
                            (.obj (addRetainedKeys awk presetSettings awkSchema)))

/-- The reserved top-level names subtracted to discover presets
(`_ensure_preset_completeness` line 283 and `parse_presets` line 153). -/
def reservedSections : List String :=
  ["global_keys", "chaos", "discord", "altcycler"]

/-- The preset-identifier set of a document: top-level keys minus the
reserved section names. -/
def presetsOf (d : Doc) : List String :=
  (keysD d).filter (fun k => ! reservedSections.contains k)

/-- The `LookupError` message of `_ensure_preset_completeness`, carrying
the presets it names. -/
def presetErrorMsg (named : List String) : String :=
  "FATAL! Preset(s) " ++ String.intercalate ", " named ++ " is only present in one file!"

/-- `CCParser._ensure_preset_completeness` verbatim: `rotation_diff` and
`skill_diff` are the settings presets missing from `rotation_data` resp.
`rgb_data`; the guard is the source's literal
`if rotation_diff or rotation_diff`, and the message names
`skill_diff or rotation_diff` (Python truthiness on sets). -/
def ensure_preset_completeness (settingsData rotationData rgbData : Doc) :
    Except String Unit :=
  let allPresets := presetsOf settingsData
  let rotationDiff := allPresets.filter (fun k => ! (keysD rotationData).contains k)
  let skillDiff := allPresets.filter (fun k => ! (keysD rgbData).contains k)
  if ! rotationDiff.isEmpty || ! rotationDiff.isEmpty then
    .error (presetErrorMsg (if ! skillDiff.isEmpty then skillDiff else rotationDiff))
  else pure ()

/-! ## Basic dictionary lemmas -/

theorem lookupD_insertD_self (d : Doc) (k : String) (v : JVal) :
    lookupD (insertD d k v) k = some v := by
  induction d with
  | nil => simp [insertD, lookupD]
  | cons p rest ih =>
      obtain ⟨k', v'⟩ := p
      by_cases h : k' = k
      · simp [insertD, h, lookupD]
      · simp [insertD, h, lookupD, ih]

theorem lookupD_insertD_ne (d : Doc) (k k' : String) (v : JVal) (h : k' ≠ k) :
    lookupD (insertD d k' v) k = lookupD d k := by
  induction d with
  | nil => simp [insertD, lookupD, h]
  | cons p rest ih =>
      obtain ⟨k₀, v₀⟩ := p
      by_cases h₀ : k₀ = k'
      · simp [insertD, h₀, lookupD, h]
      · simp only [insertD, h₀, if_false, lookupD, ih]

theorem keysD_nil : keysD ([] : Doc) = [] := rfl

theorem keysD_cons (p : String × JVal) (d : Doc) : keysD (p :: d) = p.1 :: keysD d := rfl

theorem mem_keysD_insertD (d : Doc) (k j : String) (v : JVal)
    (h : j ∈ keysD (insertD d k v)) : j = k ∨ j ∈ keysD d := by
  induction d with
  | nil =>
      simp only [insertD, keysD_cons, keysD_nil, List.mem_cons,
        List.not_mem_nil, or_false] at h
      exact Or.inl h
  | cons p rest ih =>
      obtain ⟨k₀, v₀⟩ := p
      by_cases h₀ : k₀ = k
      · simp only [insertD, if_pos h₀, keysD_cons, List.mem_cons] at h
        rw [keysD_cons, List.mem_cons]
        rcases h with h | h
        · exact Or.inl h
        · exact Or.inr (Or.inr h)
      · simp only [insertD, if_neg h₀, keysD_cons, List.mem_cons] at h
        rw [keysD_cons, List.mem_cons]
        rcases h with h | h
        · exact Or.inr (Or.inl h)
        · rcases ih h with h' | h'
          · exact Or.inl h'
          · exact Or.inr (Or.inr h')

theorem containsD_eq_true_iff (d : Doc) (k : String) :
    containsD d k = true ↔ k ∈ keysD d := by
  induction d with
  | nil => simp [containsD, lookupD, keysD_nil]
  | cons p rest ih =>
      obtain ⟨k₀, v₀⟩ := p
      by_cases h₀ : k₀ = k
      · simp [containsD, lookupD, h₀, keysD_cons]
      · simp only [containsD, lookupD, if_neg h₀, keysD_cons, List.mem_cons] at ih ⊢
        rw [ih]
        constructor
        · exact Or.inr
        · rintro (h | h)
          · exact absurd h.symm h₀
          · exact h

theorem lookupD_eq_none_iff (d : Doc) (k : String) :
    lookupD d k = none ↔ k ∉ keysD d := by
  rw [← containsD_eq_true_iff]
  simp [containsD, Option.isSome]
  constructor
  · intro h
    simp [h]
  · intro h
    cases hl : lookupD d k with
    | none => rfl
    | some v => simp [hl] at h

/-! ## Key Resolver lemmas -/

theorem mem_keysD_addRetainedKeys (tp : Doc) (nd s : Doc) (j : String)
    (h : j ∈ keysD (addRetainedKeys nd tp s)) : j ∈ keysD nd ∨ j ∈ keysD s := by
  induction tp generalizing nd with
  | nil => exact Or.inl h
  | cons p rest ih =>
      obtain ⟨k, v⟩ := p
      simp only [addRetainedKeys] at h
      by_cases hc : containsD s k
      · rw [if_pos hc] at h
        rcases ih _ h with h' | h'
        · rcases mem_keysD_insertD _ _ _ _ h' with h'' | h''
          · exact Or.inr (h'' ▸ (containsD_eq_true_iff s k).mp hc)
          · exact Or.inl h''
        · exact Or.inr h'
      · rw [if_neg hc] at h
        exact ih _ h

theorem mem_keysD_addParseMapKeys (m : RTable) (nd tp s : Doc) (j : String)
    (h : j ∈ keysD (addParseMapKeys m nd tp s)) : j ∈ keysD nd ∨ j ∈ keysD s := by
  induction m generalizing nd with
  | nil => exact Or.inl h
  | cons p rest ih =>
      obtain ⟨k, v⟩ := p
      cases hl : lookupD tp v with
      | none =>
          simp only [addParseMapKeys, hl] at h
          exact ih _ h
      | some val =>
          by_cases hc : containsD s k = true
          · simp only [addParseMapKeys, hl, if_pos hc] at h
            rcases ih _ h with h' | h'
            · rcases mem_keysD_insertD _ _ _ _ h' with h'' | h''
              · exact Or.inr (h'' ▸ (containsD_eq_true_iff s k).mp hc)
              · exact Or.inl h''
            · exact Or.inr h'
          · simp only [addParseMapKeys, hl, if_neg hc] at h
            exact ih _ h

theorem addParseMapKeysE_eq (m : RTable) (nd tp s : Doc) :
    addParseMapKeysE m nd tp s = .ok (addParseMapKeys m nd tp s) := by
  induction m generalizing nd with
  | nil => rfl
  | cons p rest ih =>
      obtain ⟨k, v⟩ := p
      cases hl : lookupD tp v with
      | none =>
          have hc : containsD tp v = false := by simp [containsD, hl]
          simp only [addParseMapKeysE, addParseMapKeys, hl, hc, Bool.and_false,
            Bool.false_eq_true, if_false]
          exact ih _
      | some val =>
          have hc : containsD tp v = true := by simp [containsD, hl]
          by_cases hs : containsD s k = true
          · simp only [addParseMapKeysE, addParseMapKeys, hl, hc, hs, Bool.and_self,
              if_true, getE]
            exact ih _
          · have hs' : containsD s k = false := by simpa using hs
            simp only [addParseMapKeysE, addParseMapKeys, hl, hs', Bool.false_and,
              Bool.false_eq_true, if_false]
            exact ih _

theorem lookupD_addParseMapKeys_notMem (m : RTable) (tp s : Doc) (k : String)
    (h : k ∉ m.map Prod.fst) :
    ∀ nd, lookupD (addParseMapKeys m nd tp s) k = lookupD nd k := by
  induction m with
  | nil => intro nd; rfl
  | cons p rest ih =>
      obtain ⟨k₀, v₀⟩ := p
      intro nd
      simp only [List.map_cons, List.mem_cons] at h
      push_neg at h
      obtain ⟨hne, hrest⟩ := h
      cases hl : lookupD tp v₀ with
      | none =>
          simp only [addParseMapKeys, hl]
          exact ih hrest _
      | some val =>
          by_cases hs : containsD s k₀ = true
          · simp only [addParseMapKeys, hl, if_pos hs]
            rw [ih hrest]
            exact lookupD_insertD_ne _ _ _ _ (Ne.symm hne)
          · simp only [addParseMapKeys, hl, if_neg hs]
            exact ih hrest _

theorem lookupD_addParseMapKeys_mem (m : RTable) (tp s : Doc)
    (nk lk : String) (vl : JVal)
    (hmem : (nk, lk) ∈ m) (hnodup : (m.map Prod.fst).Nodup)
    (hlk : lookupD tp lk = some vl) (hs : containsD s nk = true) :
    ∀ nd, lookupD (addParseMapKeys m nd tp s) nk = some vl := by
  induction m with
  | nil => cases hmem
  | cons p rest ih =>
      obtain ⟨k₀, v₀⟩ := p
      intro nd
      simp only [List.map_cons, List.nodup_cons] at hnodup
      obtain ⟨hnotin, hnodup'⟩ := hnodup
      rcases List.mem_cons.mp hmem with heq | htail
      · have hk : k₀ = nk := (congrArg Prod.fst heq).symm
        have hv : v₀ = lk := (congrArg Prod.snd heq).symm
        subst hk hv
        simp only [addParseMapKeys, hlk, if_pos hs]
        rw [lookupD_addParseMapKeys_notMem _ _ _ _ hnotin]
        exact lookupD_insertD_self _ _ _
      · have hne : k₀ ≠ nk := by
          intro hc
          exact hnotin (hc ▸ (List.mem_map.mpr ⟨(nk, lk), htail, rfl⟩))
        cases hl : lookupD tp v₀ with
        | none =>
            simp only [addParseMapKeys, hl]
            exact ih htail hnodup' _
        | some val =>
            by_cases hsk : containsD s k₀ = true
            · simp only [addParseMapKeys, hl, if_pos hsk]
              exact ih htail hnodup' _
            · simp only [addParseMapKeys, hl, if_neg hsk]
              exact ih htail hnodup' _

/-! ## Skill-slot loop lemmas -/

theorem parsePresetSkillsLoop_append (mapping : RTable) (tp rg : Doc)
    (l1 l2 : List (String × JVal)) :
    ∀ idx acc, parsePresetSkillsLoop mapping tp rg (l1 ++ l2) idx acc =
      match parsePresetSkillsLoop mapping tp rg l1 idx acc with
      | .ok a => parsePresetSkillsLoop mapping tp rg l2 (idx + l1.length) a
      | .error e => .error e := by
  induction l1 with
  | nil =>
      intro idx acc
      simp [parsePresetSkillsLoop]
  | cons p rest ih =>
      obtain ⟨k, v⟩ := p
      intro idx acc
      rw [List.cons_append]
      cases hs : parseSkillSlot mapping tp rg idx k v with
      | error e =>
          simp only [parsePresetSkillsLoop, hs]
      | ok slot =>
          simp only [parsePresetSkillsLoop, hs, ih (idx + 1), List.length_cons]
          have harith : idx + 1 + rest.length = idx + (rest.length + 1) := by omega
          rw [harith]

theorem parsePresetSkillsLoop_lookup_notMem (mapping : RTable) (tp rg : Doc)
    (l : List (String × JVal)) (k : String) (h : k ∉ l.map Prod.fst) :
    ∀ idx acc res, parsePresetSkillsLoop mapping tp rg l idx acc = .ok res →
      lookupD res k = lookupD acc k := by
  induction l with
  | nil =>
      intro idx acc res hres
      cases hres
      rfl
  | cons p rest ih =>
      obtain ⟨k₀, v₀⟩ := p
      intro idx acc res hres
      simp only [List.map_cons, List.mem_cons] at h
      push_neg at h
      obtain ⟨hne, hrest⟩ := h
      cases hs : parseSkillSlot mapping tp rg idx k₀ v₀ with
      | error e => simp [parsePresetSkillsLoop, hs] at hres
      | ok slot =>
          simp only [parsePresetSkillsLoop, hs] at hres
          rw [ih hrest _ _ _ hres]
          exact lookupD_insertD_ne _ _ _ _ (Ne.symm hne)

/-! ## Claim theorems -/

/-- **C4**: a scalar (non-nested) passthrough slot of the preset-skills
schema takes its value from the preset's rotation sub-document under the
slot's key; failing that, from the rotation sub-document under the
rename table's legacy name for the key; and if both lookups fail (the
key has no rename entry, or the legacy key is also absent) the run
aborts with a fatal lookup error. -/
theorem scalar_slot_mandatory_lookup (mapping : RTable) (toParse rgbs : Doc)
    (idx : Nat) (k s : String) :
    (∀ val, lookupD toParse k = some val →
      parseSkillSlot mapping toParse rgbs idx k (.prim s) = .ok val) ∧
    (∀ lk val, lookupD toParse k = none → lookupS mapping k = some lk →
      lookupD toParse lk = some val →
      parseSkillSlot mapping toParse rgbs idx k (.prim s) = .ok val) ∧
    (lookupD toParse k = none → lookupS mapping k = none →
      parseSkillSlot mapping toParse rgbs idx k (.prim s) = .error (keyErrorMsg k)) ∧
    (∀ lk, lookupD toParse k = none → lookupS mapping k = some lk →
      lookupD toParse lk = none →
      parseSkillSlot mapping toParse rgbs idx k (.prim s) = .error (keyErrorMsg lk)) := by
  refine ⟨?_, ?_, ?_, ?_⟩ <;> intros <;> simp_all [parseSkillSlot, getSE, getE]

/-- Witness for C4: with rotation sub-document `{use_potions: "1"}` and
schema key `allow_potions`, the renamed fallback resolves to `"1"`. -/
theorem scalar_slot_mandatory_lookup_witness :
    parseSkillSlot PARSE_MAPPING [("use_potions", .prim "1")] [] 1 "allow_potions"
      (.prim "") = .ok (.prim "1") :=
  (scalar_slot_mandatory_lookup PARSE_MAPPING [("use_potions", .prim "1")] [] 1
    "allow_potions" "").2.1 "use_potions" (.prim "1") rfl rfl rfl

/-- **C5**: when `(nk, lk)` is a rename-table entry, `nk` is a schema key
present in the source document (so Pass 1 retains it) and the legacy key
`lk` is also present, the resolver's final value at `nk` is the Pass-2
renamed lookup `D[lk]` — Pass 2 runs after Pass 1 and its writes win. -/
theorem resolver_pass2_overwrites_pass1 (mapping : RTable) (S D : Doc)
    (nk lk : String) (v0 vl : JVal)
    (hmem : (nk, lk) ∈ mapping) (hnodup : (mapping.map Prod.fst).Nodup)
    (_hret : lookupD D nk = some v0) (hs : containsD S nk = true)
    (hlk : lookupD D lk = some vl) :
    lookupD (resolve mapping S D) nk = some vl :=
  lookupD_addParseMapKeys_mem mapping D S nk lk vl hmem hnodup hlk hs _

/-- Witness for C5: schema `{map}`, source `{map: "old", map_key: "new"}`
under the real rename table: the retained value `"old"` is overwritten
by the renamed value `"new"`. -/
theorem resolver_pass2_overwrites_pass1_witness :
    lookupD (resolve PARSE_MAPPING [("map", .prim "")]
      [("map", .prim "old"), ("map_key", .prim "new")]) "map" = some (.prim "new") :=
  resolver_pass2_overwrites_pass1 PARSE_MAPPING [("map", .prim "")]
    [("map", .prim "old"), ("map_key", .prim "new")] "map" "map_key"
    (.prim "old") (.prim "new") (by decide) (by decide) rfl rfl rfl

/-- **C6**: the Key Resolver is a projection — every key of
`resolve(S, D)` is a key of the schema slice `S`; source keys outside
the schema are dropped and no key outside the schema is introduced. -/
theorem resolver_projection (mapping : RTable) (S D : Doc) (k : String)
    (h : k ∈ keysD (resolve mapping S D)) : k ∈ keysD S := by
  rcases mem_keysD_addParseMapKeys _ _ _ _ _ h with h' | h'
  · rcases mem_keysD_addRetainedKeys _ _ _ _ h' with h'' | h''
    · exact absurd h'' (List.not_mem_nil k)
    · exact h''
  · exact h'

/-- Witness for C6: `"a"` is a result key of a concrete resolution and
is a schema key. -/
theorem resolver_projection_witness :
    "a" ∈ keysD [("a", JVal.prim "s")] :=
  resolver_projection [] [("a", .prim "s")] [("a", .prim "1"), ("b", .prim "2")] "a"
    (by decide)

/-- **C7**: the Key Resolver never raises for schema keys with neither a
retained nor a renamed source value: the fallible-subscript version
always returns `ok`, and the per-call unresolved report (schema keys
minus result keys) consists exactly of keys simply absent from the
output. -/
theorem resolver_tolerant_no_raise (mapping : RTable) (S D : Doc) :
    resolveE mapping S D = .ok (resolve mapping S D) ∧
    ∀ k, k ∈ unresolvedReport S (resolve mapping S D) →
      k ∈ keysD S ∧ lookupD (resolve mapping S D) k = none := by
  constructor
  · exact addParseMapKeysE_eq _ _ _ _
  · intro k hk
    simp only [unresolvedReport, List.mem_filter] at hk
    obtain ⟨hks, hnc⟩ := hk
    refine ⟨hks, ?_⟩
    cases hl : lookupD (resolve mapping S D) k with
    | none => rfl
    | some v =>
        rw [Bool.not_eq_eq_eq_not, Bool.not_true, containsD, hl] at hnc
        simp at hnc

/-- Witness for C7: a schema key `"a"` with no source value is reported
unresolved, with no error and no `"a"` in the output. -/
theorem resolver_tolerant_no_raise_witness :
    resolveE [] [("a", JVal.prim "")] [] = .ok (resolve [] [("a", JVal.prim "")] []) ∧
    ("a" ∈ keysD [("a", JVal.prim "")] ∧
      lookupD (resolve [] [("a", JVal.prim "")] []) "a" = none) :=
  ⟨(resolver_tolerant_no_raise [] [("a", .prim "")] []).1,
    (resolver_tolerant_no_raise [] [("a", .prim "")] []).2 "a" (by decide)⟩

/-- **C8**: iterating the preset-skills schema in declaration order with
a 1-based position counter, an object-valued slot at position `< 9` gets
the injected field `"rgb" = rgbs["skill_<position>"]`; a slot at
position `≥ 9` gets no such field; the injection is a fatal lookup error
when the slot key is absent from the indicator sub-document, and
`_parse_preset_skills` is a fatal lookup error when the preset itself is
absent from the indicator document. -/
theorem indicator_injection_boundary (mapping : RTable) :
    (∀ (toParse rgbs : Doc) (l1 l2 : List (String × JVal)) (k : String) (w : Doc)
        (acc res : Doc) (r : JVal),
      parsePresetSkillsLoop mapping toParse rgbs (l1 ++ (k, .obj w) :: l2) 1 acc = .ok res →
      k ∉ l2.map Prod.fst →
      l1.length + 1 < 9 →
      lookupD rgbs ("skill_" ++ toString (l1.length + 1)) = some r →
      lookupD res k = some (.obj (insertD (addRetainedKeys [] toParse w) "rgb" r)) ∧
        lookupD (insertD (addRetainedKeys [] toParse w) "rgb" r) "rgb" = some r) ∧
    (∀ (toParse rgbs : Doc) (l1 l2 : List (String × JVal)) (k : String) (w : Doc)
        (acc res : Doc),
      parsePresetSkillsLoop mapping toParse rgbs (l1 ++ (k, .obj w) :: l2) 1 acc = .ok res →
      k ∉ l2.map Prod.fst →
      9 ≤ l1.length + 1 →
      lookupD res k = some (.obj (addRetainedKeys [] toParse w)) ∧
        ("rgb" ∉ keysD w → lookupD (addRetainedKeys [] toParse w) "rgb" = none)) ∧
    (∀ (toParse rgbs : Doc) (l1 l2 : List (String × JVal)) (k : String) (w : Doc)
        (acc acc1 : Doc),
      parsePresetSkillsLoop mapping toParse rgbs l1 1 acc = .ok acc1 →
      l1.length + 1 < 9 →
      lookupD rgbs ("skill_" ++ toString (l1.length + 1)) = none →
      parsePresetSkillsLoop mapping toParse rgbs (l1 ++ (k, .obj w) :: l2) 1 acc =
        .error (keyErrorMsg ("skill_" ++ toString (l1.length + 1)))) ∧
    (∀ (skillsSL rotationData settingsData rgbData : Doc) (preset : String) (rd : Doc),
      lookupD rotationData preset = some (.obj rd) →
      lookupD rgbData preset = none →
      parse_preset_skills mapping skillsSL rotationData settingsData rgbData preset =
        .error (keyErrorMsg preset)) := by
  refine ⟨?_, ?_, ?_, ?_⟩
  · intro toParse rgbs l1 l2 k w acc res r hres hk hpos hr
    rw [parsePresetSkillsLoop_append] at hres
    cases hloop1 : parsePresetSkillsLoop mapping toParse rgbs l1 1 acc with
    | error e => rw [hloop1] at hres; cases hres
    | ok a1 =>
        rw [hloop1] at hres
        have hidx : 1 + l1.length = l1.length + 1 := Nat.add_comm _ _
        rw [hidx] at hres
        simp only [parsePresetSkillsLoop, parseSkillSlot, if_pos hpos, getE, hr] at hres
        refine ⟨?_, lookupD_insertD_self _ _ _⟩
        rw [parsePresetSkillsLoop_lookup_notMem mapping toParse rgbs l2 k hk _ _ _ hres]
        exact lookupD_insertD_self _ _ _
  · intro toParse rgbs l1 l2 k w acc res hres hk hpos
    rw [parsePresetSkillsLoop_append] at hres
    cases hloop1 : parsePresetSkillsLoop mapping toParse rgbs l1 1 acc with
    | error e => rw [hloop1] at hres; cases hres
    | ok a1 =>
        rw [hloop1] at hres
        have hidx : 1 + l1.length = l1.length + 1 := Nat.add_comm _ _
        rw [hidx] at hres
        have hpos' : ¬ l1.length + 1 < 9 := Nat.not_lt.mpr hpos
        simp only [parsePresetSkillsLoop, parseSkillSlot, if_neg hpos'] at hres
        constructor
        · rw [parsePresetSkillsLoop_lookup_notMem mapping toParse rgbs l2 k hk _ _ _ hres]
          exact lookupD_insertD_self _ _ _
        · intro hrgb
          rw [lookupD_eq_none_iff]
          intro hmem
          rcases mem_keysD_addRetainedKeys _ _ _ _ hmem with h' | h'
          · exact absurd h' (List.not_mem_nil _)
          · exact hrgb h'
  · intro toParse rgbs l1 l2 k w acc acc1 hloop1 hpos hr
    rw [parsePresetSkillsLoop_append, hloop1]
    have hidx : 1 + l1.length = l1.length + 1 := Nat.add_comm _ _
    rw [hidx]
    simp only [parsePresetSkillsLoop, parseSkillSlot, if_pos hpos, getE, hr]
  · intro skillsSL rotationData settingsData rgbData preset rd hrot hrgb
    simp only [parse_preset_skills, getObjE, getE, hrot, hrgb, asObjE]

/-- Witness for C8: a single dict-valued slot at position 1 receives
`rgb = "red"` from `rgbs["skill_1"]`. -/
theorem indicator_injection_boundary_witness :
    lookupD [("s1", JVal.obj [("rgb", JVal.prim "red")])] "s1" =
      some (.obj (insertD (addRetainedKeys [] [] []) "rgb" (.prim "red"))) ∧
    lookupD (insertD (addRetainedKeys [] [] []) "rgb" (.prim "red")) "rgb" =
      some (.prim "red") :=
  (indicator_injection_boundary []).1 [] [("skill_1", .prim "red")] [] [] "s1" [] []
    [("s1", .obj [("rgb", .prim "red")])] (.prim "red") rfl (by decide) (by decide) rfl

/-- **C9**: all four fixed sections of `parse_settings` are resolved,
each with its own schema slice, against the one shared
`settings_data["global_keys"]` sub-document. -/
theorem section_mapper_shared_source (mapping : RTable) (schema data g sg sc sd sa : Doc)
    (hg : lookupD data "global_keys" = some (.obj g))
    (h1 : lookupD schema "global" = some (.obj sg))
    (h2 : lookupD schema "chaos" = some (.obj sc))
    (h3 : lookupD schema "discord" = some (.obj sd))
    (h4 : lookupD schema "altcycler" = some (.obj sa)) :
    ∃ res, parse_settings mapping schema data = .ok res ∧
      lookupD res "global" = some (.obj (resolve mapping sg g)) ∧
      lookupD res "chaos" = some (.obj (resolve mapping sc g)) ∧
      lookupD res "discord" = some (.obj (resolve mapping sd g)) ∧
      lookupD res "altcycler" = some (.obj (resolve mapping sa g)) := by
  refine ⟨[("global", .obj (resolve mapping sg g)), ("chaos", .obj (resolve mapping sc g)),
    ("discord", .obj (resolve mapping sd g)), ("altcycler", .obj (resolve mapping sa g))],
    ?_, rfl, rfl, rfl, rfl⟩
  simp only [parse_settings, getObjE, getE, hg, asObjE, settingsSectionList,
    parseSettingsLoop, h1, h2, h3, h4, addParseMapKeysE_eq, resolve]
  rfl

/-- Witness for C9: a concrete one-key-per-section run. -/
theorem section_mapper_shared_source_witness :
    ∃ res, parse_settings [] [("global", JVal.obj []), ("chaos", JVal.obj []),
        ("discord", JVal.obj []), ("altcycler", JVal.obj [])]
        [("global_keys", JVal.obj [("x", JVal.prim "1")])] = .ok res ∧
      lookupD res "global" = some (.obj (resolve [] [] [("x", JVal.prim "1")])) ∧
      lookupD res "chaos" = some (.obj (resolve [] [] [("x", JVal.prim "1")])) ∧
      lookupD res "discord" = some (.obj (resolve [] [] [("x", JVal.prim "1")])) ∧
      lookupD res "altcycler" = some (.obj (resolve [] [] [("x", JVal.prim "1")])) :=
  section_mapper_shared_source [] [("global", .obj []), ("chaos", .obj []),
    ("discord", .obj []), ("altcycler", .obj [])]
    [("global_keys", .obj [("x", .prim "1")])] [("x", .prim "1")] [] [] [] []
    rfl rfl rfl rfl rfl

/-- Zeta-reduced form of `_ensure_preset_completeness`. -/
theorem ensure_preset_completeness_eq (settingsData rotationData rgbData : Doc) :
    ensure_preset_completeness settingsData rotationData rgbData =
      if ! ((presetsOf settingsData).filter
            (fun k => ! (keysD rotationData).contains k)).isEmpty
         || ! ((presetsOf settingsData).filter
            (fun k => ! (keysD rotationData).contains k)).isEmpty then
        .error (presetErrorMsg
          (if ! ((presetsOf settingsData).filter
              (fun k => ! (keysD rgbData).contains k)).isEmpty
           then (presetsOf settingsData).filter
              (fun k => ! (keysD rgbData).contains k)
           else (presetsOf settingsData).filter
              (fun k => ! (keysD rotationData).contains k)))
      else .ok () := rfl

/-- The `rotation_diff` set is empty exactly when every settings preset
appears among the rotation document's keys. -/
theorem rotationDiff_eq_nil_iff (settingsData rotationData : Doc) :
    (presetsOf settingsData).filter (fun k => ! (keysD rotationData).contains k) = [] ↔
      ∀ k ∈ presetsOf settingsData, k ∈ keysD rotationData := by
  rw [List.filter_eq_nil_iff]
  refine forall_congr' fun k => imp_congr_right fun _ => ?_
  simp

/-- `_ensure_preset_completeness` succeeds exactly when `rotation_diff`
is empty — the `skill_diff` set never triggers an abort. -/
theorem ensure_eq_ok_iff (settingsData rotationData rgbData : Doc) :
    ensure_preset_completeness settingsData rotationData rgbData = .ok () ↔
      ∀ k ∈ presetsOf settingsData, k ∈ keysD rotationData := by
  rw [← rotationDiff_eq_nil_iff, ensure_preset_completeness_eq]
  by_cases hrd : (presetsOf settingsData).filter
      (fun k => ! (keysD rotationData).contains k) = []
  · rw [hrd]
    exact iff_of_true rfl rfl
  · have hie : ((presetsOf settingsData).filter
        (fun k => ! (keysD rotationData).contains k)).isEmpty = false := by
      cases hie2 : ((presetsOf settingsData).filter
          (fun k => ! (keysD rotationData).contains k)).isEmpty
      · rfl
      · exact absurd (List.isEmpty_iff.mp hie2) hrd
    rw [hie]
    constructor
    · intro h
      exact Except.noConfusion h
    · intro h
      exact absurd h hrd

/-- When `rotation_diff` is non-empty, `_ensure_preset_completeness`
raises a `LookupError` naming `skill_diff or rotation_diff`. -/
theorem ensure_eq_error (settingsData rotationData rgbData : Doc)
    (h : ¬ ∀ k ∈ presetsOf settingsData, k ∈ keysD rotationData) :
    ensure_preset_completeness settingsData rotationData rgbData =
      .error (presetErrorMsg
        (if ! ((presetsOf settingsData).filter
            (fun k => ! (keysD rgbData).contains k)).isEmpty
         then (presetsOf settingsData).filter
            (fun k => ! (keysD rgbData).contains k)
         else (presetsOf settingsData).filter
            (fun k => ! (keysD rotationData).contains k))) := by
  rw [← rotationDiff_eq_nil_iff] at h
  have hie : ((presetsOf settingsData).filter
      (fun k => ! (keysD rotationData).contains k)).isEmpty = false := by
    cases hie2 : ((presetsOf settingsData).filter
        (fun k => ! (keysD rotationData).contains k)).isEmpty
    · rfl
    · exact absurd (List.isEmpty_iff.mp hie2) h
  rw [ensure_preset_completeness_eq, hie]
  rfl

/-- Counterexample to **C1**: the checker is not symmetric.  With
settings presets `{A}`, rotation presets `{A, B}` the two sets differ
yet the run proceeds; and with settings `{A, B}`, rotation `{A}` and an
empty indicator document the error names `{A, B}` — `A` is not in the
symmetric difference `{B}`. -/
theorem consistency_check_not_symmetric_cex :
    presetsOf [("global_keys", JVal.obj []), ("A", JVal.obj [])] = ["A"] ∧
    presetsOf [("A", JVal.obj []), ("B", JVal.obj [])] = ["A", "B"] ∧
    ensure_preset_completeness [("global_keys", JVal.obj []), ("A", JVal.obj [])]
      [("A", JVal.obj []), ("B", JVal.obj [])]
      [("A", JVal.obj []), ("B", JVal.obj [])] = .ok () ∧
    ensure_preset_completeness [("A", JVal.obj []), ("B", JVal.obj [])]
      [("A", JVal.obj [])] [] = .error (presetErrorMsg ["A", "B"]) ∧
    presetErrorMsg ["A", "B"] ≠ presetErrorMsg ["B"] :=
  ⟨rfl, rfl, rfl, rfl, by decide⟩

/-- **C1** (amended): the Consistency Checker aborts with a fatal
consistency error iff some preset of the settings document is absent
from the rotation document's keys (extra rotation-only presets are
accepted); the error names the settings presets missing from the
indicator document when there are any, otherwise the settings presets
missing from the rotation document.  For settings presets `{A, B}` and
rotation presets `{A}` (indicator document complete) it aborts
naming `B`. -/
theorem consistency_check_amended (settingsData rotationData rgbData : Doc) :
    (ensure_preset_completeness settingsData rotationData rgbData = .ok () ↔
      ∀ k ∈ presetsOf settingsData, k ∈ keysD rotationData) ∧
    ((∃ k ∈ presetsOf settingsData, k ∉ keysD rotationData) →
      ensure_preset_completeness settingsData rotationData rgbData =
        .error (presetErrorMsg
          (if ! ((presetsOf settingsData).filter
              (fun k => ! (keysD rgbData).contains k)).isEmpty
           then (presetsOf settingsData).filter
              (fun k => ! (keysD rgbData).contains k)
           else (presetsOf settingsData).filter
              (fun k => ! (keysD rotationData).contains k)))) := by
  refine ⟨ensure_eq_ok_iff settingsData rotationData rgbData, ?_⟩
  rintro ⟨k, hk, hnk⟩
  exact ensure_eq_error settingsData rotationData rgbData
    (fun hall => hnk (hall k hk))

/-- Witness for C1 (amended): settings presets `{A, B}`, rotation
presets `{A}`, complete indicator document: aborts naming exactly `B`. -/
theorem consistency_check_amended_witness :
    ensure_preset_completeness [("A", JVal.obj []), ("B", JVal.obj [])]
      [("A", JVal.obj [])] [("A", JVal.obj []), ("B", JVal.obj [])] =
      .error (presetErrorMsg
        (if ! ((presetsOf [("A", JVal.obj []), ("B", JVal.obj [])]).filter
            (fun k => ! (keysD [("A", JVal.obj []), ("B", JVal.obj [])]).contains k)).isEmpty
         then (presetsOf [("A", JVal.obj []), ("B", JVal.obj [])]).filter
            (fun k => ! (keysD [("A", JVal.obj []), ("B", JVal.obj [])]).contains k)
         else (presetsOf [("A", JVal.obj []), ("B", JVal.obj [])]).filter
            (fun k => ! (keysD [("A", JVal.obj [])]).contains k))) :=
  (consistency_check_amended [("A", .obj []), ("B", .obj [])] [("A", .obj [])]
    [("A", .obj []), ("B", .obj [])]).2 ⟨"B", by decide, by decide⟩

/-- Counterexample to **C2**: the derived keybind does not fail on a
compound field without a delimiter — `"LeftButtonWalk"` has no `'-'`,
yet the run succeeds and stores the whole string. -/
theorem keybind_split_no_delimiter_cex :
    (¬ "LeftButtonWalk".toList.contains '-') ∧
    parse_keybinds PARSE_MAPPING []
      [("global_keys", JVal.obj [("move_with", JVal.prim "LeftButtonWalk")])] =
      .ok [("primary_mouse", JVal.prim "LeftButtonWalk")] :=
  ⟨by decide, rfl⟩

/-- **C2** (amended): the Keybind Extractor stores the first
`'-'`-segment of the compound `move_with` field (the entire string when
no delimiter occurs) under the derived `primary_mouse` key, and fails
with a fatal lookup error only when the compound field is absent from
the global-keys sub-document; for `move_with = "LeftButton-Walk"` the
stored value is `"LeftButton"`. -/
theorem keybind_derivation_amended (mapping : RTable) :
    (∀ (schema settingsData g : Doc) (s : String),
      lookupD settingsData "global_keys" = some (.obj g) →
      lookupD g "move_with" = some (.prim s) →
      parse_keybinds mapping schema settingsData =
        .ok (insertD (resolve mapping schema g) "primary_mouse"
          (.prim (splitFirstDash s))) ∧
      lookupD (insertD (resolve mapping schema g) "primary_mouse"
          (.prim (splitFirstDash s))) "primary_mouse" =
        some (.prim (splitFirstDash s))) ∧
    (∀ (schema settingsData g : Doc),
      lookupD settingsData "global_keys" = some (.obj g) →
      lookupD g "move_with" = none →
      parse_keybinds mapping schema settingsData = .error (keyErrorMsg "move_with")) ∧
    splitFirstDash "LeftButton-Walk" = "LeftButton" := by
  refine ⟨?_, ?_, by decide⟩
  · intro schema settingsData g s hg hm
    refine ⟨?_, lookupD_insertD_self _ _ _⟩
    simp only [parse_keybinds, getObjE, getE, hg, asObjE, addParseMapKeysE_eq, hm,
      asStrE, resolve]
  · intro schema settingsData g hg hm
    simp only [parse_keybinds, getObjE, getE, hg, asObjE, addParseMapKeysE_eq, hm]

/-- Witness for C2 (amended): the claim's own example input. -/
theorem keybind_derivation_amended_witness :
    parse_keybinds [] []
      [("global_keys", JVal.obj [("move_with", JVal.prim "LeftButton-Walk")])] =
      .ok (insertD (resolve [] [] [("move_with", JVal.prim "LeftButton-Walk")])
        "primary_mouse" (.prim (splitFirstDash "LeftButton-Walk"))) ∧
    lookupD (insertD (resolve [] [] [("move_with", JVal.prim "LeftButton-Walk")])
        "primary_mouse" (.prim (splitFirstDash "LeftButton-Walk"))) "primary_mouse" =
      some (.prim (splitFirstDash "LeftButton-Walk")) :=
  (keybind_derivation_amended []).1 []
    [("global_keys", .obj [("move_with", .prim "LeftButton-Walk")])]
    [("move_with", .prim "LeftButton-Walk")] "LeftButton-Walk" rfl rfl

/-- Counterexample to **C3**: the awakening sub-object is not produced
by both resolver passes.  With awakening schema `{allow_awakening}` and
preset settings `{use_awakening: "true"}`, the rename pass of the Key
Resolver would yield `allow_awakening = "true"`, but the code's
awakening output contains only the injected `rgb` field. -/
theorem awakening_rename_pass_skipped_cex :
    parse_preset_skills PARSE_MAPPING
      [("awakening", JVal.obj [("allow_awakening", JVal.prim "")])]
      [("P", JVal.obj [])]
      [("P", JVal.obj [("use_awakening", JVal.prim "true")])]
      [("P", JVal.obj [("skill_1", JVal.prim "red")])]
      "P" = .ok [("awakening", JVal.obj [("rgb", JVal.prim "red")])] ∧
    lookupD (resolve PARSE_MAPPING [("allow_awakening", JVal.prim "")]
      [("use_awakening", JVal.prim "true")]) "allow_awakening" =
      some (JVal.prim "true") :=
  ⟨rfl, rfl⟩

/-- **C3** (amended): for every preset, the derived awakening sub-object
is produced by applying only the retained-keys pass of the Key Resolver
(not the rename-table pass) with the awakening schema slice against the
preset's settings sub-document, merged into the already-built skills
object under the `"awakening"` key. -/
theorem awakening_retained_only_amended (mapping : RTable)
    (skillsSL rotationData settingsData rgbData : Doc) (preset : String)
    (toParse rgbs core awk sp awkSchema : Doc)
    (h1 : lookupD rotationData preset = some (.obj toParse))
    (h2 : lookupD rgbData preset = some (.obj rgbs))
    (h3 : parsePresetSkillsLoop mapping toParse rgbs skillsSL 1 [] = .ok core)
    (h4 : lookupD core "awakening" = some (.obj awk))
    (h5 : lookupD settingsData preset = some (.obj sp))
    (h6 : lookupD skillsSL "awakening" = some (.obj awkSchema)) :
    parse_preset_skills mapping skillsSL rotationData settingsData rgbData preset =
      .ok (insertD core "awakening" (.obj (addRetainedKeys awk sp awkSchema))) := by
  simp only [parse_preset_skills, getObjE, getE, h1, h2, h3, h4, h5, h6, asObjE]

/-- Witness for C3 (amended): concrete one-slot run. -/
theorem awakening_retained_only_amended_witness :
    parse_preset_skills PARSE_MAPPING
      [("awakening", JVal.obj [("allow_awakening", JVal.prim "")])]
      [("Q", JVal.obj [])]
      [("Q", JVal.obj [("use_awakening", JVal.prim "true")])]
      [("Q", JVal.obj [("skill_1", JVal.prim "red")])] "Q" =
      .ok (insertD [("awakening", JVal.obj [("rgb", JVal.prim "red")])] "awakening"
        (.obj (addRetainedKeys [("rgb", JVal.prim "red")]
          [("use_awakening", JVal.prim "true")]
          [("allow_awakening", JVal.prim "")]))) :=
  awakening_retained_only_amended PARSE_MAPPING
    [("awakening", .obj [("allow_awakening", .prim "")])]
    [("Q", .obj [])] [("Q", .obj [("use_awakening", .prim "true")])]
    [("Q", .obj [("skill_1", .prim "red")])] "Q"
    [] [("skill_1", .prim "red")] [("awakening", .obj [("rgb", .prim "red")])]
    [("rgb", .prim "red")] [("use_awakening", .prim "true")]
    [("allow_awakening", .prim "")] rfl rfl rfl rfl rfl rfl

/-- **C10**: the consistency check never aborts on the indicator (rgb)
document's preset set — when the settings and rotation preset sets
agree but a preset is absent from the indicator document, the checker
passes and the run fails later with an uncaught lookup error when
`_parse_preset_skills` reads that preset's entry from the indicator
document. -/
theorem indicator_absence_passes_check (mapping : RTable)
    (skillsSL settingsData rotationData rgbData : Doc) (p : String) (rd : Doc)
    (heq : ∀ k, k ∈ presetsOf settingsData ↔ k ∈ presetsOf rotationData)
    (_hp : p ∈ presetsOf settingsData)
    (hrot : lookupD rotationData p = some (.obj rd))
    (hrgb : lookupD rgbData p = none) :
    ensure_preset_completeness settingsData rotationData rgbData = .ok () ∧
    parse_preset_skills mapping skillsSL rotationData settingsData rgbData p =
      .error (keyErrorMsg p) := by
  constructor
  · rw [ensure_eq_ok_iff]
    intro k hk
    exact (List.mem_filter.mp ((heq k).mp hk)).1
  · simp only [parse_preset_skills, getObjE, getE, hrot, asObjE, hrgb]

/-- Witness for C10: preset `"A"` present in settings and rotation but
missing from the indicator document. -/
theorem indicator_absence_passes_check_witness :
    ensure_preset_completeness [("A", JVal.obj [])] [("A", JVal.obj [])] [] = .ok () ∧
    parse_preset_skills [] [] [("A", JVal.obj [])] [("A", JVal.obj [])] [] "A" =
      .error (keyErrorMsg "A") :=
  indicator_absence_passes_check [] [] [("A", .obj [])] [("A", .obj [])] [] "A" []
    (fun k => Iff.rfl) (by decide) rfl rfl

end CCParser
